import Mathlib

/-!
Shallow embedding of `src/changelog_helper/release_changelog.py`.

The tool manages YAML changelog fragments: `move_unreleased_changelogs`
moves pending fragment files into a versioned release folder and stamps
release metadata, `build_changelog` renders all released fragments into a
list of output lines, and `check_version` validates version strings of the
form `v<int>.<int>...`.

Filesystem state is modelled explicitly: directory listings are lists (in
listing order), file contents are embedded values. Subprocess collaborators
(git root, git user name, current date) are passed as parameters. `exit(1)`
calls are modelled as error results carrying exit code 1.
-/

/-! ### Model of the Python builtin `int(str)`

CPython integer conversion from a string: optional surrounding whitespace,
an optional single sign, then a nonempty digit run in which single
underscores may appear strictly between digits. The model covers the ASCII
fragment (ASCII whitespace and ASCII decimal digits); non-ASCII numerals
and exotic unicode spaces, which CPython also accepts, are outside the
model, as every string the program derives comes from filesystem names and
CLI arguments.
-/

deriving instance DecidableEq for Except

/-- ASCII whitespace stripped by CPython around an integer literal. -/
def py_is_space (c : Char) : Bool :=
  c = ' ' || c = '\t' || c = '\n' || c = '\x0d' || c = '\x0b' || c = '\x0c'

/-- Digit run after the first digit: single underscores are allowed, but only
when a digit immediately follows (and, by construction, precedes). -/
def py_digits_rest : List Char → Nat → Option Nat
  | [], acc => some acc
  | '_' :: c :: rest, acc =>
    if c.isDigit then py_digits_rest rest (acc * 10 + (c.toNat - 48)) else none
  | c :: rest, acc =>
    if c.isDigit then py_digits_rest rest (acc * 10 + (c.toNat - 48)) else none

/-- An unsigned decimal literal: at least one digit, underscores between digits. -/
def py_digits : List Char → Option Nat
  | c :: rest => if c.isDigit then py_digits_rest rest (c.toNat - 48) else none
  | [] => none

/-- The Python builtin `int(s)`: `none` models a raised `ValueError`. -/
def py_int (s : String) : Option Int :=
  let cs := ((s.data.dropWhile py_is_space).reverse.dropWhile py_is_space).reverse
  match cs with
  | '+' :: rest => (py_digits rest).map Int.ofNat
  | '-' :: rest => (py_digits rest).map (fun n => -(n : Int))
  | rest => (py_digits rest).map Int.ofNat

/-! ### Python string slicing and splitting

Python strings are sequences of code points, matched by `List Char`; the
slice `s[1:]` and the split `s.split('.')` are modelled by structural
recursion over `String.data` (the byte-position-based `String` builtins are
avoided only because they do not reduce in the kernel). -/

/-- The Python slice `s[1:]`. -/
def py_drop1 (s : String) : String :=
  ⟨s.data.drop 1⟩

/-- Python `str.split` with a one-character separator: splits on every occurrence,
keeps empty parts, yields one (possibly empty) part for the empty string —
exactly CPython `s.split(sep)`. -/
def py_split_char (sep : Char) : List Char → List (List Char)
  | [] => [[]]
  | c :: rest =>
    match py_split_char sep rest with
    | g :: gs => if c = sep then [] :: g :: gs else (c :: g) :: gs
    | [] => if c = sep then [[], []] else [[c]]

/-- The Python expression `s.split('.')` as a list of strings. -/
def py_split_dots (s : String) : List String :=
  (py_split_char '.' s.data).map (fun g => ⟨g⟩)

/-- The Python slice test `x[-4:]`: the last four characters, or the whole
string when it is shorter. -/
def py_last4 (s : String) : String :=
  ⟨s.data.drop (s.data.length - 4)⟩

/-! ### Version validation (`check_version`) -/

/-- Outcome of `check_version`. The first three constructors are the
`CheckVersionException` messages raised in the source (in order: the marker
check, the length check, the numeric-components check); `indexOutOfRange`
models the uncaught `IndexError` that `version_string[0]` raises on the
empty string. -/
inductive VersionError
  /-- Message: Version should start with marker v, like v1.2.19 -/
  | missingMarker
  /-- Message: You should provide version number, like v1.2.19 -/
  | missingNumber
  /-- Message: Version can contain only numbers divided by dots, like v1.2.19 -/
  | nonNumericComponent
  /-- An `IndexError`, not a `CheckVersionException`. -/
  | indexOutOfRange
deriving DecidableEq

/-- Function `check_version(version_string)` from the source. `version_string[0]`
raises `IndexError` on the empty string; otherwise the marker, length and
numeric checks run in order, where `tuple(map(int, version_string[1:].split('.')))`
raises `ValueError` (caught and re-raised as the third message) exactly when
some dot-separated part is rejected by `int`. -/
def check_version (version_string : String) : Except VersionError Unit :=
  match version_string.data with
  | [] => .error .indexOutOfRange
  | c :: _ =>
    if c ≠ 'v' then .error .missingMarker
    else if version_string.length < 2 then .error .missingNumber
    else if (py_split_dots (py_drop1 version_string)).all (fun p => (py_int p).isSome)
      then .ok ()
      else .error .nonNumericComponent

/-- True when `check_version` succeeded. -/
def check_version_ok (s : String) : Bool :=
  match check_version s with
  | .ok _ => true
  | .error _ => false

/-- Function `version_strings_key(version)` from the source:
`tuple(map(int, version[1:].split('.')))`. `none` models a raised
`ValueError`; on every name that passed `check_version` it is `some`. -/
def version_strings_key (version : String) : Option (List Int) :=
  (py_split_dots (py_drop1 version)).mapM py_int

/-- Total version of `version_strings_key` used as the sort key. The
`sorted` call only ever evaluates the key on names that passed
`check_version`, where `version_strings_key` is `some`, so the default is
never reached. -/
def version_key (version : String) : List Int :=
  (version_strings_key version).getD []

/-! ### Python tuple comparison and `sorted` -/

/-- Python tuple `<=` on integer tuples: lexicographic, a strict prefix
compares below the longer tuple. -/
def py_tuple_le : List Int → List Int → Bool
  | [], _ => true
  | _ :: _, [] => false
  | a :: as, b :: bs => if a < b then true else if b < a then false else py_tuple_le as bs

/-- Descending order on version names by sort key: `a` may precede `b` in the
output of `sorted(key=version_strings_key, reverse=True)`. -/
def version_desc (a b : String) : Prop :=
  py_tuple_le (version_key b) (version_key a) = true

instance : DecidableRel version_desc := fun _ _ =>
  inferInstanceAs (Decidable (_ = true))

theorem py_tuple_le_total : ∀ a b : List Int, py_tuple_le a b = true ∨ py_tuple_le b a = true
  | [], _ => Or.inl rfl
  | _ :: _, [] => Or.inr rfl
  | a :: as, b :: bs => by
    simp only [py_tuple_le]
    rcases lt_trichotomy a b with h | h | h
    · left; simp [h]
    · subst h
      simpa [lt_irrefl] using py_tuple_le_total as bs
    · right; simp [h, not_lt_of_lt h]

theorem py_tuple_le_trans :
    ∀ a b c : List Int, py_tuple_le a b = true → py_tuple_le b c = true →
      py_tuple_le a c = true
  | [], _, _, _, _ => rfl
  | _ :: _, [], _, h, _ => by simp [py_tuple_le] at h
  | _ :: _, _ :: _, [], _, h => by simp [py_tuple_le] at h
  | a :: as, b :: bs, c :: cs, hab, hbc => by
    simp only [py_tuple_le] at hab hbc ⊢
    by_cases h1 : a < b
    · by_cases h2 : b < c
      · simp [lt_trans h1 h2]
      · by_cases h3 : c < b
        · simp [h2, h3] at hbc
        · have : b = c := le_antisymm (not_lt.mp h3) (not_lt.mp h2)
          subst this; simp [h1]
    · by_cases h1' : b < a
      · simp [h1, h1'] at hab
      · have : a = b := le_antisymm (not_lt.mp h1') (not_lt.mp h1)
        subst this
        by_cases h2 : a < c
        · simp [h2]
        · by_cases h3 : c < a
          · simp [h2, h3] at hbc
          · simp [h2, h3, lt_irrefl] at hab hbc ⊢
            exact py_tuple_le_trans as bs cs hab hbc

instance : IsTotal String version_desc :=
  ⟨fun a b => py_tuple_le_total (version_key b) (version_key a)⟩

instance : IsTrans String version_desc :=
  ⟨fun _ _ _ hab hbc => py_tuple_le_trans _ _ _ hbc hab⟩

/-! ### Filesystem data model

Directory listings are lists in listing order. A fragment file name counts
as a changelog fragment when the Python slice test `x[-4:] == '.yml'`
succeeds; `String.takeRight 4` matches the slice exactly (both return the
whole string when it is shorter than four characters).
-/

/-- The fragment-file test `x[-4:] == '.yml'` from the source. -/
def is_yml_name (name : String) : Bool :=
  py_last4 name == ".yml"

/-- Decoded content of a fragment file, as produced by `yaml.load`:
either a mapping whose `author` and `title` keys may each be present or
absent, or a file that fails to decode (`yaml.load` raises). Mappings with
extra keys are represented by the two keys the program reads; a decoded
non-mapping document is outside the model. -/
inductive FragContent
  | doc (author : Option String) (title : Option String)
  | badYaml
deriving DecidableEq

/-- The `release-info` record as written by `write_release_info`:
`{date, released_by}`. -/
structure ReleaseInfo where
  date : String
  released_by : String
deriving DecidableEq

/-- One entry of the `changelogs/released` listing: its name, whether it is
a directory, its own file listing (fragment candidates, in listing order)
and its `release-info` file if present. The `release-info` file is kept as
a separate field; its name never passes `is_yml_name`, so keeping it out of
`files` does not change which fragments are read. -/
structure VersionFolderEntry where
  name : String
  isDir : Bool
  files : List (String × FragContent)
  releaseInfo : Option ReleaseInfo
deriving DecidableEq

/-- The storage the program reads and writes, rooted at
`<git root>/changelogs`: the `unreleased` listing (file name and content,
in listing order), the `released` listing, and the optional `archive.md`
(as its lines, newlines included, as `for line in f` yields them). -/
structure Storage where
  unreleased : List (String × FragContent)
  released : List VersionFolderEntry
  archive : Option (List String)
deriving DecidableEq

/-! ### Release transition (`move_unreleased_changelogs`, `write_release_info`) -/

/-- The two `exit(1)` outcomes of `move_unreleased_changelogs`. -/
inductive ReleaseError
  /-- Printed: Changelog for this version already exists. -/
  | duplicateRelease
  /-- Printed: There is no unreleased changes. -/
  | noPendingChanges
deriving DecidableEq

/-- Exit code of the process for a release-transition outcome: both failure
branches call `exit(1)`. -/
def release_exit_code : Except ReleaseError Unit → Nat
  | .ok _ => 0
  | .error _ => 1

/-- Function `write_release_info(released_version_folder)` from the source: writes
`{date: today, released_by: author}` into the folder, overwriting any
existing `release-info` (the pre-existing case only prints a warning).
`datetime.date.today().isoformat()` and `get_author()` are the `today` and
`author` parameters. -/
def write_release_info (today author : String) (folder : VersionFolderEntry) :
    VersionFolderEntry :=
  { folder with releaseInfo := some { date := today, released_by := author } }

/-- Function `move_unreleased_changelogs(version)` from the source, returning the
process outcome together with the storage state at process end:
1. if the destination exists (`os.path.exists`, any entry of that name),
   print and `exit(1)` with the state untouched;
2. `os.makedirs` creates the (empty) destination folder;
3. the `.yml` entries of `unreleased` are listed; if none, print and
   `exit(1)`, leaving the freshly created empty folder behind;
4. each listed file is moved into the destination;
5. `write_release_info` stamps the metadata (`git add` is external). -/
def move_unreleased_changelogs (today author version : String) (st : Storage) :
    Except ReleaseError Unit × Storage :=
  if st.released.any (fun e => e.name == version) then
    (.error .duplicateRelease, st)
  else
    let newFolder : VersionFolderEntry :=
      { name := version, isDir := true, files := [], releaseInfo := none }
    let files_to_move := st.unreleased.filter (fun f => is_yml_name f.1)
    if files_to_move.length == 0 then
      (.error .noPendingChanges, { st with released := st.released ++ [newFolder] })
    else
      (.ok (),
        { st with
          unreleased := st.unreleased.filter (fun f => !is_yml_name f.1),
          released := st.released ++
            [write_release_info today author { newFolder with files := files_to_move }] })

/-! ### Changelog aggregation (`get_version_folders`, `get_version_changes`,
`get_release_info`, `build_changelog`) -/

/-- Function `get_version_folders()` from the source: walk the `released` listing,
keep directories whose names pass `check_version` (others are only
printed about and skipped), then
`sorted(key=version_strings_key, reverse=True)`. Python `sorted` is a
stable sort; a stable sort over a total preorder is unique, so the stable
`List.insertionSort` computes the same list. -/
def get_version_folders (released : List VersionFolderEntry) : List String :=
  let version_folders :=
    (released.filter (fun e => e.isDir && check_version_ok e.name)).map (fun e => e.name)
  List.insertionSort version_desc version_folders

/-- Errors that abort the aggregation pass. -/
inductive AggError
  /-- Raised by `yaml.load` while decoding a fragment. -/
  | malformedYaml
  /-- Lookup `entry['author']` or `entry['title']` raised `KeyError`. -/
  | missingField
  /-- a version name taken from the listing was not found when re-listed
  (unreachable when aggregating an unchanged storage). -/
  | folderNotFound
deriving DecidableEq

/-- The aggregation pass reached this point without raising. -/
def agg_ok {α : Type} : Except AggError α → Bool
  | .ok _ => true
  | .error _ => false

/-- The dict-insertion step of `get_version_changes`: Python dicts preserve
insertion order, modelled as an association list; a first entry for an
author is appended at the end, a later one extends that author's list. -/
def add_change (changes : List (String × List String)) (author line : String) :
    List (String × List String) :=
  if changes.any (fun p => p.1 == author) then
    changes.map (fun p => if p.1 == author then (p.1, p.2 ++ [line]) else p)
  else
    changes ++ [(author, [line])]

/-- The body of the `get_version_changes` loop for one fragment file: a
fragment that fails to decode raises out of the loop (`malformedYaml`); a
decoded fragment without `author` or `title` raises `KeyError`
(`missingField`); otherwise the title line is filed under the author. -/
def changes_step (changes : List (String × List String)) (f : String × FragContent) :
    Except AggError (List (String × List String)) :=
  match f.2 with
  | .badYaml => .error .malformedYaml
  | .doc none _ => .error .missingField
  | .doc (some _) none => .error .missingField
  | .doc (some author) (some title) =>
      .ok (add_change changes author ("- " ++ title ++ "\n"))

/-- Function `get_version_changes(version)` from the source, applied to the version
folder's file listing: read each `.yml` file in listing order, group title
lines by author, aborting at the first fragment that raises. -/
def get_version_changes (files : List (String × FragContent)) :
    Except AggError (List (String × List String)) :=
  (files.filter (fun f => is_yml_name f.1)).foldlM changes_step []

/-- Function `get_release_info(version)` from the source: the decoded `release-info`
file, or an empty dict when the file is absent. -/
def get_release_info (folder : VersionFolderEntry) : Option ReleaseInfo :=
  folder.releaseInfo

/-- The expression `release_info.get('date', '')` from the source. -/
def release_date_of (info : Option ReleaseInfo) : String :=
  match info with
  | some i => i.date
  | none => ""

/-- The lines the `build_changelog` loop body appends for one version:
the heading (version with the marker stripped, plus the release date),
one attribution line per author followed by that author's bullet lines,
then a blank line. -/
def version_section (released : List VersionFolderEntry) (version : String) :
    Except AggError (List String) :=
  match released.find? (fun e => e.name == version) with
  | none => .error .folderNotFound
  | some folder => do
    let changes ← get_version_changes folder.files
    .ok (("## Version " ++ py_drop1 version ++ " ("
            ++ release_date_of (get_release_info folder) ++ ")\n")
        :: ((changes.flatMap (fun p => ("*@" ++ p.1 ++ "*\n") :: p.2))
            ++ ["\n"]))

/-- Function `build_changelog()` from the source: the fixed header, then each
released version's section in `get_version_folders` order, then the
`archive.md` lines verbatim when that file exists. The Python loop appends
into one list and propagates the first raised error; `mapM` plus `join`
computes the same result (the partially built list is discarded on error in
both). -/
def build_changelog (st : Storage) : Except AggError (List String) := do
  let sections ← (get_version_folders st.released).mapM (version_section st.released)
  .ok (["**Note:** This file is automatically generated. Use changelog_helper to add your own entry\n",
        "\n"]
      ++ sections.flatten
      ++ (match st.archive with | some lines => lines | none => []))

/-- Process state for the build-and-write tail of `main`: the storage that
`build_changelog` reads and the current content of `CHANGELOG.md` (which it
never reads). -/
structure ProcState where
  storage : Storage
  changelog : Option (List String)
deriving DecidableEq

/-- The tail of `main`: `changelog = build_changelog()` runs to completion
first, and only then is `CHANGELOG.md` opened for writing and overwritten.
If aggregation raises, the process aborts before the `open(..., 'w')`, so
the previous file content survives. -/
def run_build (ps : ProcState) : ProcState :=
  match build_changelog ps.storage with
  | .ok lines => { ps with changelog := some lines }
  | .error _ => ps
/-! ### Helper lemmas -/

/-- Mapping with `mapM` over `Option` yields the pointwise map when every component parses. -/
theorem option_mapM_eq_map {α β : Type} (f : α → Option β) (d : β) :
    ∀ l : List α, l.all (fun a => (f a).isSome) = true →
      l.mapM f = some (l.map (fun a => (f a).getD d))
  | [], _ => rfl
  | a :: l, h => by
    rw [List.all_cons, Bool.and_eq_true] at h
    rcases Option.isSome_iff_exists.mp h.1 with ⟨b, hb⟩
    rw [List.mapM_cons, option_mapM_eq_map f d l h.2]
    simp [hb]

/-- A `find?` over an appended singleton, when nothing earlier matches. -/
theorem find?_append_singleton {α : Type} (p : α → Bool) (l : List α) (x : α)
    (hl : l.any p = false) (hx : p x = true) :
    (l ++ [x]).find? p = some x := by
  rw [List.find?_append]
  have : l.find? p = none :=
    List.find?_eq_none.mpr (fun a ha => by
      have := List.any_eq_false.mp hl a ha; simpa using this)
  simp [this, List.find?_cons, hx]

/-! ### Claim theorems -/

/-- C1: on a released listing whose entries are all directories with
validated names, `get_version_folders` returns exactly those names (a
permutation of the listing), sorted descending by the integer-tuple sort
key; on the listing `{v1.2.0, v1.10.0, v1.2.5}` the order is
`v1.10.0, v1.2.5, v1.2.0`, not string order. -/
theorem c1_version_folders_sorted_descending :
    (∀ rel : List VersionFolderEntry,
      (∀ e ∈ rel, e.isDir = true ∧ check_version_ok e.name = true) →
      (get_version_folders rel).Perm (rel.map (fun e => e.name))
      ∧ List.Sorted version_desc (get_version_folders rel))
    ∧ get_version_folders
        [⟨"v1.2.0", true, [], none⟩, ⟨"v1.10.0", true, [], none⟩, ⟨"v1.2.5", true, [], none⟩]
      = ["v1.10.0", "v1.2.5", "v1.2.0"] := by
  constructor
  · intro rel h
    have hf : rel.filter (fun e => e.isDir && check_version_ok e.name) = rel :=
      List.filter_eq_self.mpr (fun e he => by
        rcases h e he with ⟨h1, h2⟩
        rw [h1, h2]; rfl)
    constructor
    · show (List.insertionSort version_desc _).Perm _
      rw [hf]
      exact List.perm_insertionSort _ _
    · exact List.sorted_insertionSort _ _
  · decide

theorem c1_version_folders_sorted_descending_witness :
    (get_version_folders
        [⟨"v3.1", true, [], none⟩, ⟨"v10.0", true, [], none⟩]).Perm
      ([(⟨"v3.1", true, [], none⟩ : VersionFolderEntry),
        ⟨"v10.0", true, [], none⟩].map (fun e => e.name))
    ∧ List.Sorted version_desc
        (get_version_folders [⟨"v3.1", true, [], none⟩, ⟨"v10.0", true, [], none⟩]) :=
  c1_version_folders_sorted_descending.1
    [⟨"v3.1", true, [], none⟩, ⟨"v10.0", true, [], none⟩] (by decide)

/-- C10: the sort key is not injective on validated version names —
`v1.2` and `v01.2` are distinct strings that both pass `check_version` and
share the key `(1, 2)` — and the relative order of two such folders in
`get_version_folders` follows the listing order, not the key: the two
listing orders of the same pair produce different outputs. -/
theorem c10_sort_key_not_injective :
    check_version_ok "v1.2" = true ∧ check_version_ok "v01.2" = true
    ∧ ("v1.2" : String) ≠ "v01.2"
    ∧ version_strings_key "v1.2" = version_strings_key "v01.2"
    ∧ get_version_folders [⟨"v1.2", true, [], none⟩, ⟨"v01.2", true, [], none⟩]
        = ["v1.2", "v01.2"]
    ∧ get_version_folders [⟨"v01.2", true, [], none⟩, ⟨"v1.2", true, [], none⟩]
        = ["v01.2", "v1.2"] := by
  refine ⟨by decide, by decide, ?_, by decide, by decide, by decide⟩
  decide

/-- C5: when a released entry named `version` already exists, the release
transition fails with `DuplicateRelease`, the process exit code is 1, and
the storage state is returned unchanged: nothing is moved, created or
written. -/
theorem c5_duplicate_release_no_mutation :
    ∀ (st : Storage) (today author version : String),
      st.released.any (fun e => e.name == version) = true →
      move_unreleased_changelogs today author version st = (.error .duplicateRelease, st)
      ∧ release_exit_code (move_unreleased_changelogs today author version st).1 = 1 := by
  intro st today author version h
  constructor
  · unfold move_unreleased_changelogs
    rw [if_pos h]
  · unfold move_unreleased_changelogs
    rw [if_pos h]
    rfl

theorem c5_duplicate_release_no_mutation_witness :
    move_unreleased_changelogs "2024-05-06" "alice" "v1.0.0"
        ⟨[("a.yml", .doc (some "bo") (some "t"))], [⟨"v1.0.0", true, [], none⟩], none⟩
      = (.error .duplicateRelease,
         ⟨[("a.yml", .doc (some "bo") (some "t"))], [⟨"v1.0.0", true, [], none⟩], none⟩)
    ∧ release_exit_code
        (move_unreleased_changelogs "2024-05-06" "alice" "v1.0.0"
          ⟨[("a.yml", .doc (some "bo") (some "t"))], [⟨"v1.0.0", true, [], none⟩], none⟩).1
      = 1 :=
  c5_duplicate_release_no_mutation _ "2024-05-06" "alice" "v1.0.0" (by decide)

/-- C4 counterexample: a state whose unreleased area has zero fragment
files but whose release area already holds a folder named `v1.0.0`; the
claim predicts `NoPendingChanges` for every zero-fragment state, yet the
call fails with `DuplicateRelease` instead (the duplicate check runs
first). -/
theorem c4_counterexample_duplicate_beats_empty :
    (move_unreleased_changelogs "2024-05-06" "alice" "v1.0.0"
        ⟨[], [⟨"v1.0.0", true, [], none⟩], none⟩).1
      = .error .duplicateRelease
    ∧ (move_unreleased_changelogs "2024-05-06" "alice" "v1.0.0"
        ⟨[], [⟨"v1.0.0", true, [], none⟩], none⟩).1
      ≠ .error .noPendingChanges := by
  refine ⟨by decide, by decide⟩

/-- C4 amended: when additionally no released entry named `version` exists,
a release with zero unreleased fragment files fails with
`NoPendingChanges`, exit code 1, and the only change to storage is the
freshly created destination folder, which holds no fragment files and no
release-info record. -/
theorem c4_no_pending_changes :
    ∀ (st : Storage) (today author version : String),
      st.released.any (fun e => e.name == version) = false →
      st.unreleased.any (fun f => is_yml_name f.1) = false →
      (move_unreleased_changelogs today author version st).1 = .error .noPendingChanges
      ∧ release_exit_code (move_unreleased_changelogs today author version st).1 = 1
      ∧ (move_unreleased_changelogs today author version st).2
        = { st with released := st.released ++
              [{ name := version, isDir := true, files := [], releaseInfo := none }] } := by
  intro st today author version h1 h2
  have hfil : st.unreleased.filter (fun f => is_yml_name f.1) = [] :=
    List.filter_eq_nil_iff.mpr (List.any_eq_false.mp h2)
  unfold move_unreleased_changelogs
  rw [if_neg (by rw [h1]; exact Bool.false_ne_true), hfil]
  exact ⟨rfl, rfl, rfl⟩

theorem c4_no_pending_changes_witness :
    (move_unreleased_changelogs "2024-05-06" "alice" "v2.0.0"
        ⟨[("notes.txt", .badYaml)], [⟨"v1.0.0", true, [], none⟩], none⟩).1
      = .error .noPendingChanges
    ∧ release_exit_code
        (move_unreleased_changelogs "2024-05-06" "alice" "v2.0.0"
          ⟨[("notes.txt", .badYaml)], [⟨"v1.0.0", true, [], none⟩], none⟩).1
      = 1
    ∧ (move_unreleased_changelogs "2024-05-06" "alice" "v2.0.0"
        ⟨[("notes.txt", .badYaml)], [⟨"v1.0.0", true, [], none⟩], none⟩).2
      = { unreleased := [("notes.txt", .badYaml)],
          released := [⟨"v1.0.0", true, [], none⟩] ++
            [{ name := "v2.0.0", isDir := true, files := [], releaseInfo := none }],
          archive := none } :=
  c4_no_pending_changes
    ⟨[("notes.txt", .badYaml)], [⟨"v1.0.0", true, [], none⟩], none⟩
    "2024-05-06" "alice" "v2.0.0" (by decide) (by decide)

/-- C3: a release on a state with no folder for `version` and at least one
unreleased fragment file succeeds; afterwards none of the previously listed
fragment files remains in the unreleased area, and the destination folder
holds exactly those files together with a release-info record carrying
today's date and the resolved releaser identity. -/
theorem c3_release_moves_all_fragments :
    ∀ (st : Storage) (today author version : String),
      st.released.any (fun e => e.name == version) = false →
      st.unreleased.any (fun f => is_yml_name f.1) = true →
      (move_unreleased_changelogs today author version st).1 = .ok ()
      ∧ (∀ f ∈ st.unreleased.filter (fun f => is_yml_name f.1),
          f ∉ (move_unreleased_changelogs today author version st).2.unreleased)
      ∧ (move_unreleased_changelogs today author version st).2.released.find?
          (fun e => e.name == version)
        = some { name := version, isDir := true,
                 files := st.unreleased.filter (fun f => is_yml_name f.1),
                 releaseInfo := some { date := today, released_by := author } } := by
  intro st today author version h1 h2
  have hne : st.unreleased.filter (fun f => is_yml_name f.1) ≠ [] := by
    intro hnil
    rcases List.any_eq_true.mp h2 with ⟨x, hx, hyml⟩
    exact List.filter_eq_nil_iff.mp hnil x hx hyml
  have hlen : ((st.unreleased.filter (fun f => is_yml_name f.1)).length == 0) = false := by
    rw [beq_eq_false_iff_ne]
    exact fun hz => hne (List.length_eq_zero.mp hz)
  unfold move_unreleased_changelogs
  rw [if_neg (by rw [h1]; exact Bool.false_ne_true),
      if_neg (by rw [hlen]; exact Bool.false_ne_true)]
  refine ⟨rfl, ?_, ?_⟩
  · intro f hf hmem
    rw [List.mem_filter] at hf hmem
    rw [hf.2] at hmem
    exact absurd hmem.2 (by decide)
  · exact find?_append_singleton _ _ _ h1 (by simp [write_release_info])

theorem c3_release_moves_all_fragments_witness :
    (move_unreleased_changelogs "2024-05-06" "alice" "v2.0.0"
        ⟨[("a.yml", .doc (some "ana") (some "Fix bug")), ("notes.txt", .badYaml)],
         [⟨"v1.0.0", true, [], none⟩], none⟩).2.released.find?
      (fun e => e.name == "v2.0.0")
    = some { name := "v2.0.0", isDir := true,
             files := [("a.yml", .doc (some "ana") (some "Fix bug")),
                       ("notes.txt", .badYaml)].filter (fun f => is_yml_name f.1),
             releaseInfo := some { date := "2024-05-06", released_by := "alice" } } :=
  (c3_release_moves_all_fragments
    ⟨[("a.yml", .doc (some "ana") (some "Fix bug")), ("notes.txt", .badYaml)],
     [⟨"v1.0.0", true, [], none⟩], none⟩
    "2024-05-06" "alice" "v2.0.0" (by decide) (by decide)).2.2

/-- True when `check_version` ended in `.ok` or in a `CheckVersionException` carrying
one of the three descriptive reasons (rather than some other exception). -/
def descriptive_or_ok : Except VersionError Unit → Bool
  | .ok _ => true
  | .error .missingMarker => true
  | .error .missingNumber => true
  | .error .nonNumericComponent => true
  | .error .indexOutOfRange => false

/-- C8 counterexample: on the empty string, validation terminates with an
`IndexError` (from `version_string[0]`), not with the dedicated
`CheckVersionException` and its descriptive reasons. -/
theorem c8_counterexample_empty_string_index_error :
    check_version "" = .error .indexOutOfRange
    ∧ descriptive_or_ok (check_version "") = false := by
  refine ⟨by decide, by decide⟩

/-- C8 amended: on every non-empty string, validation either succeeds or
rejects with the dedicated `CheckVersionException` carrying one of the
three descriptive reasons (missing marker, missing number, non-numeric
component); no other kind of exception occurs. -/
theorem c8_nonempty_rejects_descriptively :
    ∀ s : String, s.data ≠ [] → descriptive_or_ok (check_version s) = true := by
  intro s hs
  obtain ⟨data⟩ := s
  match data with
  | [] => exact absurd rfl hs
  | c :: rest =>
    rw [show check_version ⟨c :: rest⟩ =
        (if c ≠ 'v' then .error .missingMarker
         else if (String.mk (c :: rest)).length < 2 then .error .missingNumber
         else if (py_split_dots (py_drop1 ⟨c :: rest⟩)).all (fun p => (py_int p).isSome)
           then .ok () else .error .nonNumericComponent) from rfl]
    split_ifs <;> rfl

theorem c8_nonempty_rejects_descriptively_witness :
    descriptive_or_ok (check_version "x?!") = true :=
  c8_nonempty_rejects_descriptively "x?!" (by decide)

/-- Validation as the claim words it: the string starts with the single
fixed marker and every dot-separated part of the remainder parses as a
non-negative integer, i.e. is a non-empty string of decimal digits. -/
def claim_c2_validate (s : String) : Bool :=
  match s.data with
  | c :: rest =>
      c == 'v' && (py_split_char '.' rest).all (fun p => !p.isEmpty && p.all Char.isDigit)
  | [] => false

/-- C2 counterexample: `check_version` also accepts components that are not
non-negative integers, because Python `int` accepts them: a signed
component (`v-1`), surrounding whitespace (`v 1`), and an underscore
separator (`v1_0`) all pass validation while failing the claimed
characterisation. -/
theorem c2_counterexample_signed_component :
    check_version "v-1" = .ok () ∧ claim_c2_validate "v-1" = false
    ∧ check_version "v 1" = .ok () ∧ claim_c2_validate "v 1" = false
    ∧ check_version "v1_0" = .ok () ∧ claim_c2_validate "v1_0" = false := by
  refine ⟨by decide, by decide, by decide, by decide, by decide, by decide⟩

/-- C2 amended: `validate(s)` succeeds iff `s` starts with the marker `v`
and every dot-separated part of the remainder is accepted by Python integer
conversion (`int`, which also accepts an optional sign, surrounding
whitespace and underscore digit separators — not only non-negative digit
strings); on every valid string, `sortKey` is the tuple of the parsed
integers in order. -/
theorem c2_validate_characterisation :
    ∀ s : String,
      (check_version_ok s = true ↔
        (s.data.head? = some 'v'
         ∧ (py_split_dots (py_drop1 s)).all (fun p => (py_int p).isSome) = true))
      ∧ (check_version_ok s = true →
          version_strings_key s =
            some ((py_split_dots (py_drop1 s)).map (fun p => (py_int p).getD 0))) := by
  intro s
  obtain ⟨data⟩ := s
  have hiff : check_version_ok ⟨data⟩ = true ↔
      ((⟨data⟩ : String).data.head? = some 'v'
       ∧ (py_split_dots (py_drop1 ⟨data⟩)).all (fun p => (py_int p).isSome) = true) := by
    match data with
    | [] => decide
    | c :: rest =>
      by_cases hc : c = 'v'
      · subst hc
        by_cases hr : rest = []
        · subst hr; decide
        · have hlen : ¬ (String.mk ('v' :: rest)).length < 2 := by
            show ¬ ('v' :: rest).length < 2
            have : rest.length ≠ 0 := fun h => hr (List.length_eq_zero.mp h)
            simp only [List.length_cons]
            omega
          have hck : check_version ⟨'v' :: rest⟩ =
              (if (py_split_dots (py_drop1 ⟨'v' :: rest⟩)).all (fun p => (py_int p).isSome)
                then .ok () else .error .nonNumericComponent) := by
            rw [show check_version ⟨'v' :: rest⟩ =
                (if ('v' : Char) ≠ 'v' then .error .missingMarker
                 else if (String.mk ('v' :: rest)).length < 2 then .error .missingNumber
                 else if (py_split_dots (py_drop1 ⟨'v' :: rest⟩)).all
                     (fun p => (py_int p).isSome)
                   then .ok () else .error .nonNumericComponent) from rfl]
            rw [if_neg (by simp), if_neg hlen]
          unfold check_version_ok
          rw [hck]
          cases hE : (py_split_dots (py_drop1 ⟨'v' :: rest⟩)).all (fun p => (py_int p).isSome)
          · simp [hE]
          · simp [hE]
      · have hck : check_version ⟨c :: rest⟩ = .error .missingMarker := by
          rw [show check_version ⟨c :: rest⟩ =
              (if c ≠ 'v' then .error .missingMarker
               else if (String.mk (c :: rest)).length < 2 then .error .missingNumber
               else if (py_split_dots (py_drop1 ⟨c :: rest⟩)).all (fun p => (py_int p).isSome)
                 then .ok () else .error .nonNumericComponent) from rfl]
          rw [if_pos hc]
        unfold check_version_ok
        rw [hck]
        simp [hc]
  refine ⟨hiff, fun hok => ?_⟩
  have hall := (hiff.mp hok).2
  unfold version_strings_key
  exact option_mapM_eq_map py_int 0 _ hall

theorem c2_validate_characterisation_witness :
    version_strings_key "v1.2.19" =
      some ((py_split_dots (py_drop1 "v1.2.19")).map (fun p => (py_int p).getD 0)) :=
  (c2_validate_characterisation "v1.2.19").2 (by decide)

/-- C6: with the storage unchanged, re-running the build step computes the
same output line sequence, and the whole build-and-write step is
idempotent on the process state (the output file is not among the inputs
of `build_changelog`). -/
theorem c6_build_idempotent :
    ∀ ps : ProcState,
      build_changelog (run_build ps).storage = build_changelog ps.storage
      ∧ run_build (run_build ps) = run_build ps := by
  intro ps
  obtain ⟨stor, clog⟩ := ps
  cases h : build_changelog stor with
  | ok lines =>
    have h1 : run_build ⟨stor, clog⟩ = ⟨stor, some lines⟩ := by
      unfold run_build; dsimp only; rw [h]
    have h2 : run_build ⟨stor, some lines⟩ = ⟨stor, some lines⟩ := by
      unfold run_build; dsimp only; rw [h]
    rw [h1]
    exact ⟨h, h2⟩
  | error e =>
    have h1 : run_build ⟨stor, clog⟩ = ⟨stor, clog⟩ := by
      unfold run_build; dsimp only; rw [h]
    rw [h1]
    exact ⟨h, h1⟩

/-- A fragment file whose read aborts the aggregation pass: it fails to
decode, or decodes without the `author` or the `title` field. -/
def fragment_bad : FragContent → Bool
  | .badYaml => true
  | .doc none _ => true
  | .doc (some _) none => true
  | .doc (some _) (some _) => false

theorem changes_foldlM_error :
    ∀ (l : List (String × FragContent)) (acc : List (String × List String)),
      l.any (fun f => fragment_bad f.2) = true →
      agg_ok (l.foldlM changes_step acc) = false
  | [], _, h => by simp at h
  | f :: l, acc, h => by
    simp only [List.any_cons, Bool.or_eq_true] at h
    rw [List.foldlM_cons]
    match hf : f.2 with
    | .badYaml =>
      have hs : changes_step acc f = .error .malformedYaml := by
        unfold changes_step; rw [hf]
      rw [hs]; rfl
    | .doc none t =>
      have hs : changes_step acc f = .error .missingField := by
        unfold changes_step; rw [hf]
      rw [hs]; rfl
    | .doc (some a) none =>
      have hs : changes_step acc f = .error .missingField := by
        unfold changes_step; rw [hf]
      rw [hs]; rfl
    | .doc (some a) (some t) =>
      have hs : changes_step acc f =
          .ok (add_change acc a ("- " ++ t ++ "\n")) := by
        unfold changes_step; rw [hf]
      have hany : l.any (fun g => fragment_bad g.2) = true := by
        rcases h with h' | h'
        · rw [hf] at h'; simp [fragment_bad] at h'
        · exact h'
      rw [hs]
      exact changes_foldlM_error l _ hany

theorem except_mapM_error {α β : Type} (f : α → Except AggError β) :
    ∀ l : List α, l.any (fun a => !(agg_ok (f a))) = true →
      agg_ok (l.mapM f) = false
  | [], h => by simp at h
  | a :: l, h => by
    simp only [List.any_cons, Bool.or_eq_true] at h
    rw [List.mapM_cons]
    cases hfa : f a with
    | error e => rfl
    | ok b =>
      rcases h with h' | h'
      · rw [hfa] at h'; exact absurd h' (by simp [agg_ok])
      · have hrec := except_mapM_error f l h'
        cases hl : l.mapM f with
        | ok bs => rw [hl] at hrec; simp [agg_ok] at hrec
        | error e => rfl

/-- C7: when some released version listed for aggregation holds a fragment
file that fails to decode or lacks `author` or `title`, the whole build
errors, and the build-and-write step leaves the previous `CHANGELOG.md`
content untouched, since writing only happens after the full sequence is
built. -/
theorem c7_bad_fragment_aborts_before_write :
    ∀ ps : ProcState,
      ((get_version_folders ps.storage.released).any (fun v =>
          match ps.storage.released.find? (fun e => e.name == v) with
          | some folder => folder.files.any (fun f => is_yml_name f.1 && fragment_bad f.2)
          | none => false)) = true →
      agg_ok (build_changelog ps.storage) = false
      ∧ (run_build ps).changelog = ps.changelog := by
  intro ps h
  have hsec : (get_version_folders ps.storage.released).any
      (fun v => !(agg_ok (version_section ps.storage.released v))) = true := by
    rcases List.any_eq_true.mp h with ⟨v, hv, hbad⟩
    refine List.any_eq_true.mpr ⟨v, hv, ?_⟩
    cases hfind : ps.storage.released.find? (fun e => e.name == v) with
    | none => rw [hfind] at hbad; exact absurd hbad (by decide)
    | some folder =>
      rw [hfind] at hbad
      have hchanges : agg_ok (get_version_changes folder.files) = false := by
        unfold get_version_changes
        apply changes_foldlM_error
        rw [List.any_filter]
        exact hbad
      cases hc : get_version_changes folder.files with
      | ok cs => rw [hc] at hchanges; simp [agg_ok] at hchanges
      | error e =>
        have hvs : version_section ps.storage.released v = .error e := by
          unfold version_section
          rw [hfind]
          show (do
            let changes ← get_version_changes folder.files
            Except.ok (("## Version " ++ py_drop1 v ++ " ("
                ++ release_date_of (get_release_info folder) ++ ")\n")
              :: ((changes.flatMap fun p => ("*@" ++ p.1 ++ "*\n") :: p.2) ++ ["\n"])))
            = Except.error e
          rw [hc]
          rfl
        rw [hvs]
        rfl
  have hm : agg_ok ((get_version_folders ps.storage.released).mapM
      (version_section ps.storage.released)) = false :=
    except_mapM_error _ _ hsec
  cases hb : (get_version_folders ps.storage.released).mapM
      (version_section ps.storage.released) with
  | ok secs => rw [hb] at hm; simp [agg_ok] at hm
  | error e =>
    have hbuild : build_changelog ps.storage = .error e := by
      unfold build_changelog; rw [hb]; rfl
    constructor
    · rw [hbuild]; rfl
    · unfold run_build; rw [hbuild]

theorem c7_bad_fragment_aborts_before_write_witness :
    agg_ok (build_changelog
        ⟨[], [⟨"v1.0.0", true, [("a.yml", .badYaml)], none⟩], none⟩) = false
    ∧ (run_build ⟨⟨[], [⟨"v1.0.0", true, [("a.yml", .badYaml)], none⟩], none⟩,
        some ["old content\n"]⟩).changelog
      = some ["old content\n"] :=
  c7_bad_fragment_aborts_before_write
    ⟨⟨[], [⟨"v1.0.0", true, [("a.yml", .badYaml)], none⟩], none⟩, some ["old content\n"]⟩
    (by decide)

/-- C9: a released version folder with no fragment files still gets its
section: the heading line (with its release date, or the empty string when
`release-info` is absent) immediately followed by the trailing blank line,
and nothing in between; and such a version (a directory with a validated
name) is still listed by `get_version_folders`, not skipped. -/
theorem c9_empty_version_not_skipped :
    ∀ (rel : List VersionFolderEntry) (version : String) (folder : VersionFolderEntry),
      rel.find? (fun e => e.name == version) = some folder →
      folder.files.filter (fun f => is_yml_name f.1) = [] →
      version_section rel version
        = .ok [("## Version " ++ py_drop1 version ++ " ("
                  ++ release_date_of (get_release_info folder) ++ ")\n"), "\n"]
      ∧ (folder.isDir = true → check_version_ok version = true →
          version ∈ get_version_folders rel) := by
  intro rel version folder hfind hempty
  constructor
  · have hch : get_version_changes folder.files = .ok [] := by
      unfold get_version_changes
      rw [hempty]
      rfl
    unfold version_section
    rw [hfind]
    show (do
      let changes ← get_version_changes folder.files
      Except.ok (("## Version " ++ py_drop1 version ++ " ("
          ++ release_date_of (get_release_info folder) ++ ")\n")
        :: ((changes.flatMap fun p => ("*@" ++ p.1 ++ "*\n") :: p.2) ++ ["\n"])))
      = _
    rw [hch]
    rfl
  · intro hdir hok
    have hmem : folder ∈ rel := List.mem_of_find?_eq_some hfind
    have hname : folder.name = version :=
      beq_iff_eq.mp (List.find?_eq_some.mp hfind).1
    show version ∈ List.insertionSort version_desc _
    rw [List.mem_insertionSort]
    refine List.mem_map.mpr ⟨folder, ?_, hname⟩
    rw [List.mem_filter]
    refine ⟨hmem, ?_⟩
    rw [hdir, hname, hok]
    rfl

theorem c9_empty_version_not_skipped_witness :
    version_section [⟨"v1.0.0", true, [("readme.txt", .badYaml)], some ⟨"2021-03-04", "bob"⟩⟩]
        "v1.0.0"
      = .ok ["## Version 1.0.0 (2021-03-04)\n", "\n"]
    ∧ "v1.0.0" ∈ get_version_folders
        [⟨"v1.0.0", true, [("readme.txt", .badYaml)], some ⟨"2021-03-04", "bob"⟩⟩] := by
  have h := c9_empty_version_not_skipped
    [⟨"v1.0.0", true, [("readme.txt", .badYaml)], some ⟨"2021-03-04", "bob"⟩⟩] "v1.0.0"
    ⟨"v1.0.0", true, [("readme.txt", .badYaml)], some ⟨"2021-03-04", "bob"⟩⟩
    (by decide) (by decide)
  exact ⟨h.1, h.2 rfl (by decide)⟩
